import Mathlib

/- A verification development for the pressure layout engine
(`src/pressure/layout.py`).

Modeling conventions:
* Python floats are modeled as exact rational numbers (a real-arithmetic
  idealization of IEEE-754 arithmetic); the float literals of the source are
  embedded as the exact rational values of the corresponding doubles.
* Python object identity for the entries of `Layout.children` is modeled
  positionally: a child object is identified with its index in the list, so
  `self.children.index(c)` is the index a child was paired with.  Lists are
  assumed to hold distinct objects (no aliasing of one child at two positions).
* Attribute mutation is modeled by state passing: setters return the updated
  record.
* Code that can raise returns `Except PyError`. -/

namespace Pressure

/-- Exact rational value of the double `(1+5**0.5)/2.0`, the golden ratio
constant `CONST_PHI` of the source (line 7). -/
def CONST_PHI : ℚ := 910872158600853 / 562949953421312

/-- Exact rational value of the double literal `1.05` (source line 265). -/
def FLOAT_1_05 : ℚ := 4728779608739021 / 4503599627370496

/-- Exact rational value of the double literal `1e100` (source line 262). -/
def FLOAT_1E100 : ℚ :=
  10000000000000000159028911097599180468360808563945281389781327557747838772170381060813469985856815104

/-- An externally supplied element.  `id` models Python object identity; the
optional fields model whether the object exposes readable `width` / `height`
attributes (`none` means the attribute is missing and reading it raises
`AttributeError`). -/
structure Element where
  id : Nat
  width? : Option ℚ
  height? : Option ℚ
deriving DecidableEq

/-- Errors a modeled operation can raise.  The source raises a plain
`AttributeError` when an attribute read fails.  `invalidElementError` is the
error class named by the specification; no such class exists anywhere in the
source, and the constructor is included here only so that statements about the
specification's wording can be expressed and compared. -/
inductive PyError where
  | attributeError
  | invalidElementError
deriving DecidableEq

/-- Whether a modeled call succeeded, i.e. raised no exception. -/
def isOk {α : Type} : Except PyError α → Bool
  | Except.ok _ => true
  | Except.error _ => false

/-- Reading `element.width` (source line 38): `AttributeError` when absent. -/
def Element.getWidth (e : Element) : Except PyError ℚ :=
  match e.width? with
  | some w => Except.ok w
  | none => Except.error PyError.attributeError

/-- Reading `element.height` (source line 39): `AttributeError` when absent. -/
def Element.getHeight (e : Element) : Except PyError ℚ :=
  match e.height? with
  | some h => Except.ok h
  | none => Except.error PyError.attributeError

/-- `LayoutChild` (source lines 10-78): a container for an arbitrary element.
`element` is `none` for a `Layout`, which passes `None` to the base
constructor. -/
structure LayoutChild where
  element : Option Element
  x : ℚ
  y : ℚ
  width : ℚ
  height : ℚ
  padding_horizontal : ℚ
  padding_vertical : ℚ
deriving DecidableEq

/-- `LayoutChild.__init__` (source lines 31-41).  The Python defaults are
`width=None`, `height=None`, `padding_horizontal=5`, `padding_vertical=5`.
The element attribute is read only when the corresponding override is absent
(the conditional expression is lazy), and the stored size is the intrinsic
size plus the padding. -/
def LayoutChild.init (element : Element) (width? height? : Option ℚ)
    (ph pv : ℚ) : Except PyError LayoutChild := do
  let w ← match width? with
    | some w => Except.ok w
    | none => element.getWidth
  let h ← match height? with
    | some h => Except.ok h
    | none => element.getHeight
  Except.ok
    { element := some element, x := 0, y := 0,
      width := w + ph, height := h + pv,
      padding_horizontal := ph, padding_vertical := pv }

/-- `LayoutChild.box` (source lines 43-51). -/
def LayoutChild.box (c : LayoutChild) : ℚ × ℚ × ℚ × ℚ :=
  (c.x, c.y, c.width, c.height)

/-- The `padding_horizontal` property setter (source lines 57-63).  The source
computes `delta = value-self._padding_horizontal`, returns early when the delta
is zero, and then executes `self.width += value` (the computed `delta` is never
used). -/
def LayoutChild.set_padding_horizontal (c : LayoutChild) (value : ℚ) :
    LayoutChild :=
  let delta := value - c.padding_horizontal
  if delta = 0 then c
  else { c with width := c.width + value, padding_horizontal := value }

/-- The `padding_vertical` property setter (source lines 69-75), symmetric to
the horizontal one, `self.height += value` included. -/
def LayoutChild.set_padding_vertical (c : LayoutChild) (value : ℚ) :
    LayoutChild :=
  let delta := value - c.padding_vertical
  if delta = 0 then c
  else { c with height := c.height + value, padding_vertical := value }

/-- `Layout` (source lines 81-308).  `children` holds the leaf boxes.  The
fields `element`, `padding_horizontal` and `padding_vertical` are those set by
`LayoutChild.__init__(self, None, width=0, height=0)` at source line 118
(element `None`, both paddings `5`).  `x` / `y` are the `_x` / `_y` backing
fields of the position properties. -/
structure Layout where
  ratio : ℚ
  align : Nat
  padding : ℚ
  children : List LayoutChild
  x : ℚ
  y : ℚ
  element : Option Element
  padding_horizontal : ℚ
  padding_vertical : ℚ
deriving DecidableEq

/-- `Layout.HORIZONTAL` (source line 105). -/
def Layout.HORIZONTAL : Nat := 1

/-- `Layout.VERTICAL` (source line 106). -/
def Layout.VERTICAL : Nat := 2

/-- `Layout.OPTIMIZED` (source line 107). -/
def Layout.OPTIMIZED : Nat := 3

/-- Python's `max` over a nonempty collection `x, xs`. -/
def listMax (x : ℚ) (xs : List ℚ) : ℚ := xs.foldl max x

/-- The `Layout.width` property getter (source lines 195-201): `0` for an
empty layout, otherwise
`max(child.width+child.x+child.padding_horizontal/2) - self.x +
self.padding_horizontal` (the trailing `return sum(...)` of the source is dead
code). -/
def Layout.widthGet (l : Layout) : ℚ :=
  match l.children.map (fun c => c.width + c.x + c.padding_horizontal / 2) with
  | [] => 0
  | v :: vs => listMax v vs - l.x + l.padding_horizontal

/-- The `Layout.width` property setter (source lines 203-208): a no-op on an
empty layout, otherwise it moves the last child to
`self.x + value - child.width - self.padding_horizontal`. -/
def Layout.set_width (l : Layout) (value : ℚ) : Layout :=
  match l.children.getLast? with
  | none => l
  | some c =>
    { l with
      children := l.children.set (l.children.length - 1)
        { c with x := l.x + value - c.width - l.padding_horizontal } }

/-- The `Layout.height` property getter (source lines 210-216), symmetric to
the width getter (again with a dead trailing `return`). -/
def Layout.heightGet (l : Layout) : ℚ :=
  match l.children.map (fun c => c.height + c.y + c.padding_vertical / 2) with
  | [] => 0
  | v :: vs => listMax v vs - l.y + l.padding_vertical

/-- The `Layout.height` property setter (source lines 218-220): explicitly
`pass`. -/
def Layout.set_height (l : Layout) (_value : ℚ) : Layout := l

/-- The `Layout.x` property setter (source lines 173-180): store the value and
shift every child by the delta (children here are leaves, so the shift is a
plain field update). -/
def Layout.set_x (l : Layout) (value : ℚ) : Layout :=
  let delta := value - l.x
  let l' := { l with x := value }
  if delta = 0 then l'
  else { l' with children := l'.children.map (fun c => { c with x := c.x + delta }) }

/-- The `Layout.y` property setter (source lines 186-193). -/
def Layout.set_y (l : Layout) (value : ℚ) : Layout :=
  let delta := value - l.y
  let l' := { l with y := value }
  if delta = 0 then l'
  else { l' with children := l'.children.map (fun c => { c with y := c.y + delta }) }

/-- The `for` loop of `align_horizontal` (source lines 141-145): place each
child at `(running width, 0)`, accumulating the total width and the maximal
height. -/
def alignHLoop : List LayoutChild → ℚ → ℚ → List LayoutChild × ℚ × ℚ
  | [], width, height => ([], width, height)
  | c :: cs, width, height =>
    let c' := { c with x := width, y := (0 : ℚ) }
    let r := alignHLoop cs (width + c.width) (max height c.height)
    (c' :: r.1, r.2)

/-- `Layout.align_horizontal` (source lines 131-148): run the placement loop,
then `self.width = width` (which moves the last child through the width
setter) and `self.height = height` (a no-op), returning `(width, height)`. -/
def Layout.align_horizontal (l : Layout) : Layout × ℚ × ℚ :=
  let r := alignHLoop l.children 0 0
  ((({ l with children := r.1 }).set_width r.2.1).set_height r.2.2, r.2)

/-- The `for` loop of `align_vertical` (source lines 160-164). -/
def alignVLoop : List LayoutChild → ℚ → ℚ → List LayoutChild × ℚ × ℚ
  | [], width, height => ([], width, height)
  | c :: cs, width, height =>
    let c' := { c with x := (0 : ℚ), y := height }
    let r := alignVLoop cs (max width c.width) (height + c.height)
    (c' :: r.1, r.2)

/-- `Layout.align_vertical` (source lines 150-167): the column analog; it also
ends with `self.width = width` and `self.height = height`. -/
def Layout.align_vertical (l : Layout) : Layout × ℚ × ℚ :=
  let r := alignVLoop l.children 0 0
  ((({ l with children := r.1 }).set_width r.2.1).set_height r.2.2, r.2)

/-- A value passed to `Layout.child`: either a raw element or something that
is already a `LayoutChild`. -/
inductive ChildArg where
  | elem (e : Element)
  | box (b : LayoutChild)
deriving DecidableEq

/-- `Layout.child` (source lines 126-129): return the argument unchanged when
it is already a `LayoutChild`, otherwise wrap it (the padding arguments are
what the call sites pass, namely `self.padding` twice). -/
def Layout.child : ChildArg → ℚ → ℚ → Except PyError LayoutChild
  | ChildArg.box b, _, _ => Except.ok b
  | ChildArg.elem e, ph, pv => LayoutChild.init e none none ph pv

/-- The effect of one `Layout.add_children` call: which branch ran, and for
the multi-child branch, the arguments of the `Layout(*children, ratio=...,
align=..., padding=...)` constructor call of source line 243 (the flat model
records the nested constructor call instead of nesting layouts). -/
inductive AddAction where
  | noChildren
  | single (c : LayoutChild)
  | nested (elems : List ChildArg) (ratio : ℚ) (align : Nat) (padding : ℚ)
deriving DecidableEq

/-- `Layout.add_children` (source lines 222-244).  `align` is read from the
keyword arguments with default `Layout.HORIZONTAL` (source line 235); a single
child is adapted and appended; two or more children become a nested `Layout`
constructed with that `align`. -/
def Layout.add_children (l : Layout) (children : List ChildArg)
    (alignArg : Option Nat) : Except PyError (Layout × AddAction) :=
  let align := alignArg.getD Layout.HORIZONTAL
  match children with
  | [] => Except.ok (l, AddAction.noChildren)
  | [c] => do
    let ch ← Layout.child c l.padding l.padding
    Except.ok ({ l with children := l.children ++ [ch] }, AddAction.single ch)
  | cs => Except.ok (l, AddAction.nested cs l.ratio align l.padding)

/-- Pair every child with its index, starting at `n`.  The index models the
Python object identity of the child: `self.children.index(c)` (source line
286) recovers exactly this index. -/
def idxPairsFrom (n : Nat) : List LayoutChild → List (Nat × LayoutChild)
  | [] => []
  | c :: cs => (n, c) :: idxPairsFrom (n + 1) cs

/-- The children of a layout paired with their insertion indices. -/
def Layout.childPairs (l : Layout) : List (Nat × LayoutChild) :=
  idxPairsFrom 0 l.children

/-- The ordering used by `sorted(self.children,
key=operator.attrgetter('width'), reverse=True)` (source lines 258-259):
widest first, original order preserved on ties (Python's sort is stable). -/
def widthGe (a b : Nat × LayoutChild) : Prop := b.2.width ≤ a.2.width

instance : DecidableRel widthGe :=
  fun a b => inferInstanceAs (Decidable (b.2.width ≤ a.2.width))

instance : IsTotal (Nat × LayoutChild) widthGe :=
  ⟨fun a b => le_total b.2.width a.2.width⟩

instance : IsTrans (Nat × LayoutChild) widthGe :=
  ⟨fun _ _ _ h h' => le_trans h' h⟩

/-- The children sorted from fattest to thinnest (source lines 257-259),
modeled by a stable insertion sort over the index-tagged children. -/
def Layout.sortedChildren (l : Layout) : List (Nat × LayoutChild) :=
  List.insertionSort widthGe l.childPairs

/-- `sum(c.height for c in col)` (source lines 270 and 277). -/
def colHeight (col : List (Nat × LayoutChild)) : ℚ :=
  (col.map (fun c => c.2.height)).sum

/-- `max(c.width for c in col)` (source lines 276 and 296).  Python's `max`
raises `ValueError` on an empty column; the `[]` case returns `0`, which is
exactly the `except ValueError: col_width = 0` handler of the commit phase
(source lines 295-298).  During scoring every column holds at least one
child, so the `[]` case is never hit there. -/
def colMaxWidth (col : List (Nat × LayoutChild)) : ℚ :=
  match col.map (fun c => c.2.width) with
  | [] => 0
  | w :: ws => listMax w ws

/-- The `for col in cols` search of the greedy pass (source lines 268-275):
append the child to the first column where the running height stays strictly
under the cap; `none` when no existing column fits. -/
def tryPlace (cap : ℚ) (c : Nat × LayoutChild) :
    List (List (Nat × LayoutChild)) → Option (List (List (Nat × LayoutChild)))
  | [] => none
  | col :: rest =>
    if colHeight col + c.2.height < cap then some ((col ++ [c]) :: rest)
    else (tryPlace cap c rest).map (fun r => col :: r)

/-- One greedy step (source lines 267-275): first fit, otherwise open a new
column containing just this child. -/
def greedyStep (cap : ℚ) (cols : List (List (Nat × LayoutChild)))
    (c : Nat × LayoutChild) : List (List (Nat × LayoutChild)) :=
  (tryPlace cap c cols).getD (cols ++ [[c]])

/-- The greedy partition for one height cap (source lines 266-275). -/
def greedyCols (cap : ℚ) (children : List (Nat × LayoutChild)) :
    List (List (Nat × LayoutChild)) :=
  children.foldl (greedyStep cap) []

/-- `width = sum(max(c.width for c in col) for col in cols)` (line 276). -/
def partWidth (cols : List (List (Nat × LayoutChild))) : ℚ :=
  (cols.map colMaxWidth).sum

/-- `height = max(sum(c.height for c in col) for col in cols)` (line 277);
when the children are nonempty, `cols` is nonempty, so the `0` stands for the
unreachable empty case. -/
def partHeight (cols : List (List (Nat × LayoutChild))) : ℚ :=
  match cols.map colHeight with
  | [] => 0
  | h :: hs => listMax h hs

/-- `score = width+height*self.ratio` (source line 279). -/
def partScore (ratio : ℚ) (cols : List (List (Nat × LayoutChild))) : ℚ :=
  partWidth cols + partHeight cols * ratio

/-- `total_height = sum(child.height for child in children)` (source line
260), taken over the sorted children. -/
def Layout.total_height (l : Layout) : ℚ :=
  (l.sortedChildren.map (fun c => c.2.height)).sum

/-- The candidate partition for column count `num_col` (source lines 265-275),
including the height cap `total_height/num_col*1.05`. -/
def Layout.candidate (l : Layout) (num_col : Nat) :
    List (List (Nat × LayoutChild)) :=
  greedyCols (l.total_height / (num_col : ℚ) * FLOAT_1_05) l.sortedChildren

/-- One iteration of `for num_col in xrange(1, len(children)+1)` (source lines
264-282): keep the candidate on a strict score improvement
(`if score < best_score`). -/
def Layout.selectStep (l : Layout)
    (acc : List (List (Nat × LayoutChild)) × ℚ) (num_col : Nat) :
    List (List (Nat × LayoutChild)) × ℚ :=
  let cols := l.candidate num_col
  let score := partScore l.ratio cols
  if score < acc.2 then (cols, score) else acc

/-- The `best` partition after the search loop (source lines 262-283): the
accumulator starts at `best = [children]` (all sorted children in a single
column) and `best_score = 1e100`. -/
def Layout.optimizeBest (l : Layout) : List (List (Nat × LayoutChild)) :=
  ((List.range' 1 l.sortedChildren.length).foldl l.selectStep
    ([l.sortedChildren], FLOAT_1E100)).1

/-- The ascending-insertion-index ordering: models
`col.sort(key=lambda c: self.children.index(c))` (source line 286). -/
def idxLe (a b : Nat × LayoutChild) : Prop := a.1 ≤ b.1

instance : DecidableRel idxLe :=
  fun a b => inferInstanceAs (Decidable (a.1 ≤ b.1))

instance : IsTotal (Nat × LayoutChild) idxLe := ⟨fun a b => Nat.le_total a.1 b.1⟩

instance : IsTrans (Nat × LayoutChild) idxLe := ⟨fun _ _ _ h h' => Nat.le_trans h h'⟩

/-- The columns that get committed: the best partition with every column
restored to original insertion order (source lines 283-286). -/
def Layout.optimizeCols (l : Layout) : List (List (Nat × LayoutChild)) :=
  l.optimizeBest.map (List.insertionSort idxLe)

/-- The commit loop body for one column (source lines 292-306).  The
accumulator is `(children state, x, col_width, max_height)`: `x` grows by the
previous column's width, `col_width` is the maximal width in this column
(`0` for an empty column via the `ValueError` handler), and every child is
rewritten at index `ic.1` with its new `x`, `y` and `width` (all other fields
as in the snapshot `ic.2`, which the commit phase never mutates).
`commitChild` is the body of the inner `for child in col` loop (source lines
300-305): rewrite the child at index `ic.1` with its new `x`, `y`, `width`,
and advance `y` by the child's height. -/
def commitChild (x col_width : ℚ) (a : List LayoutChild × ℚ)
    (ic : Nat × LayoutChild) : List LayoutChild × ℚ :=
  (a.1.set ic.1
    { ic.2 with
      x := x + ic.2.padding_horizontal / 2,
      y := a.2 + ic.2.padding_vertical / 2,
      width := col_width },
   a.2 + ic.2.height)

/-- The commit loop body for one column (source lines 292-306), continued:
the accumulator is `(children state, x, col_width, max_height)`. -/
def commitCol (pv2 : ℚ) (acc : List LayoutChild × ℚ × ℚ × ℚ)
    (col : List (Nat × LayoutChild)) : List LayoutChild × ℚ × ℚ × ℚ :=
  let x := acc.2.1 + acc.2.2.1
  let col_width := colMaxWidth col
  let r := col.foldl (commitChild x col_width) (acc.1, pv2)
  (r.1, x, col_width, max acc.2.2.2 r.2)

/-- `Layout.optimize` (source lines 246-308): search for the best partition,
restore insertion order inside each column, commit positions column by column
(starting at `x = self.padding_horizontal/2`, each column starting at
`y = self.padding_vertical/2`), and return
`(x+col_width+self.padding_horizontal/2, max_height+self.padding_vertical/2)`
along with the updated layout. -/
def Layout.optimize (l : Layout) : Layout × ℚ × ℚ :=
  let r := l.optimizeCols.foldl (commitCol (l.padding_vertical / 2))
    (l.children, l.padding_horizontal / 2, 0, 0)
  ({ l with children := r.1 },
   (r.2.1 + r.2.2.1 + l.padding_horizontal / 2, r.2.2.2 + l.padding_vertical / 2))

/-- `Layout.__init__` (source lines 109-124): adapt the children (each with
`padding_horizontal=self.padding`, `padding_vertical=self.padding`), run
`LayoutChild.__init__(self, None, width=0, height=0)` — whose `self.width` /
`self.height` assignments go through the `Layout` property setters, and whose
`self.x = 0.0` assignment is a no-op since `_x` is already `0` — and finally
run the strategy selected by `align` (an unknown `align` value runs nothing).
The Python defaults are `ratio=CONST_PHI`, `align=Layout.OPTIMIZED`,
`padding=5`. -/
def Layout.init (childArgs : List ChildArg) (ratio : ℚ) (align : Nat)
    (padding : ℚ) : Except PyError Layout := do
  let children ← childArgs.mapM (fun c => Layout.child c padding padding)
  let l0 : Layout :=
    { ratio := ratio, align := align, padding := padding, children := children,
      x := 0, y := 0, element := none,
      padding_horizontal := 5, padding_vertical := 5 }
  let l1 := (l0.set_width 0).set_height 0
  let l2 := l1.set_width (l1.widthGet + l1.padding_horizontal)
  let l3 := l2.set_height (l2.heightGet + l2.padding_vertical)
  Except.ok
    (if align = Layout.HORIZONTAL then l3.align_horizontal.1
     else if align = Layout.VERTICAL then l3.align_vertical.1
     else if align = Layout.OPTIMIZED then l3.optimize.1
     else l3)

/-- The fields of a child that `optimize` never mutates. -/
def proj (c : LayoutChild) : Option Element × ℚ × ℚ × ℚ :=
  (c.element, c.height, c.padding_horizontal, c.padding_vertical)

/-- The sum of the widths of the first `i` children. -/
def prefixW (cs : List LayoutChild) (i : Nat) : ℚ :=
  ((cs.take i).map (fun c => c.width)).sum

/-- A leaf of intrinsic size 10 by 10 with the default padding 5, exactly the
value produced by `LayoutChild.init ⟨i, some 10, some 10⟩ none none 5 5`. -/
def leaf10 (i : Nat) : LayoutChild :=
  { element := some ⟨i, some 10, some 10⟩, x := 0, y := 0,
    width := 15, height := 15, padding_horizontal := 5, padding_vertical := 5 }

/-- The layout of the three-leaves scenario: three 10 by 10 leaves, default
ratio, alignment and padding. -/
def L3 : Layout :=
  { ratio := CONST_PHI, align := Layout.OPTIMIZED, padding := 5,
    children := [leaf10 0, leaf10 1, leaf10 2],
    x := 0, y := 0, element := none,
    padding_horizontal := 5, padding_vertical := 5 }

/-- An empty layout with all defaults. -/
def LE : Layout :=
  { ratio := CONST_PHI, align := Layout.OPTIMIZED, padding := 5,
    children := [], x := 0, y := 0, element := none,
    padding_horizontal := 5, padding_vertical := 5 }

/-- Leaf A: stored width 10 and height 20 (intrinsic 5 by 15 plus padding). -/
def cA : LayoutChild :=
  { element := some ⟨0, some 5, some 15⟩, x := 0, y := 0,
    width := 10, height := 20, padding_horizontal := 5, padding_vertical := 5 }

/-- Leaf B: stored width 30 and height 5 (intrinsic 25 by 0 plus padding). -/
def cB : LayoutChild :=
  { element := some ⟨1, some 25, some 0⟩, x := 0, y := 0,
    width := 30, height := 5, padding_horizontal := 5, padding_vertical := 5 }

/-- A layout of the two leaves A then B in insertion order; B is wider, so the
packing sort puts B first. -/
def LAB : Layout :=
  { ratio := CONST_PHI, align := Layout.OPTIMIZED, padding := 5,
    children := [cA, cB],
    x := 0, y := 0, element := none,
    padding_horizontal := 5, padding_vertical := 5 }

/-- A layout of two children of width 1 and height `10^100` each (zero
padding), large enough that every candidate score reaches the `1e100`
sentinel. -/
def Lbig : Layout :=
  { ratio := CONST_PHI, align := Layout.OPTIMIZED, padding := 0,
    children :=
      [{ element := some ⟨0, some 1, some (10 ^ 100)⟩, x := 0, y := 0,
         width := 1, height := 10 ^ 100, padding_horizontal := 0, padding_vertical := 0 },
       { element := some ⟨1, some 1, some (10 ^ 100)⟩, x := 0, y := 0,
         width := 1, height := 10 ^ 100, padding_horizontal := 0, padding_vertical := 0 }],
    x := 0, y := 0, element := none,
    padding_horizontal := 5, padding_vertical := 5 }

/-- A single-child layout with all defaults. -/
def L1 : Layout :=
  { ratio := CONST_PHI, align := Layout.OPTIMIZED, padding := 5,
    children := [leaf10 0], x := 0, y := 0, element := none,
    padding_horizontal := 5, padding_vertical := 5 }

/-- A layout whose own alignment attribute is `VERTICAL`. -/
def LV : Layout :=
  { ratio := CONST_PHI, align := Layout.VERTICAL, padding := 5,
    children := [], x := 0, y := 0, element := none,
    padding_horizontal := 5, padding_vertical := 5 }

/-- An element exposing neither a readable width nor a readable height. -/
def elemNoAttrs : Element := { id := 0, width? := none, height? := none }

/-- C1 counterexample: on three 10 by 10 leaves with the default ratio,
`optimize` does not commit all three children into one column: the committed
partition consists of three singleton columns. -/
theorem optimize_three_equal_leaves_not_one_column :
    L3.optimizeCols.map (List.map Prod.fst) = [[0], [1], [2]] ∧
    L3.optimizeCols.length ≠ 1 := by
  norm_num [L3, Layout.optimizeCols, Layout.optimizeBest, Layout.selectStep,
    Layout.candidate, Layout.sortedChildren, Layout.childPairs, idxPairsFrom,
    List.insertionSort, List.orderedInsert, widthGe, idxLe, greedyCols,
    greedyStep, tryPlace, colHeight, colMaxWidth, listMax, partWidth,
    partHeight, partScore, Layout.total_height, FLOAT_1_05, FLOAT_1E100,
    CONST_PHI, leaf10, List.range']

/-- C1 amended: on three 10 by 10 leaves with the default ratio, `optimize`
commits the three-singleton-column partition (its score `45 + 15*ratio` beats
the single column's `15 + 45*ratio` because the ratio exceeds 1), committing
the children at x positions 5, 20, 35, all at y = 5 with width 15, and
returning the size `(50, 20)`. -/
theorem optimize_three_equal_leaves :
    L3.optimizeCols.map (List.map Prod.fst) = [[0], [1], [2]] ∧
    L3.optimize.2 = (50, 20) ∧
    L3.optimize.1.children.map LayoutChild.box =
      [(5, 5, 15, 15), (20, 5, 15, 15), (35, 5, 15, 15)] := by
  norm_num [L3, Layout.optimize, Layout.optimizeCols, Layout.optimizeBest,
    Layout.selectStep, Layout.candidate, Layout.sortedChildren,
    Layout.childPairs, idxPairsFrom, List.insertionSort, List.orderedInsert,
    widthGe, idxLe, greedyCols, greedyStep, tryPlace, colHeight, colMaxWidth,
    listMax, partWidth, partHeight, partScore, Layout.total_height,
    FLOAT_1_05, FLOAT_1E100, CONST_PHI, leaf10, List.range', commitCol,
    commitChild, LayoutChild.box]

/-- C4 (code bug): starting from the default padding 5 and stored width 15,
assigning `padding_horizontal = 2` gives width 17, and the subsequent
assignment `padding_horizontal = 3` gives width 20 — a change of 3 (the newly
assigned value), not of `3 - 2 = 1` (the delta): the setter computes `delta`
but then executes `self.width += value`. -/
theorem padding_setter_adds_value_not_delta :
    ((leaf10 0).set_padding_horizontal 2).width = 17 ∧
    (((leaf10 0).set_padding_horizontal 2).set_padding_horizontal 3).width = 20 ∧
    ((20 : ℚ) - 17 ≠ 3 - 2) := by
  norm_num [leaf10, LayoutChild.set_padding_horizontal]

/-- C5 counterexample: `optimize` on an empty layout returns `(5, 5)` — the
default horizontal and vertical padding of the layout — not `(0, 0)`. -/
theorem optimize_empty_returns_padding :
    LE.optimize.2 = (5, 5) ∧ ((5, 5) : ℚ × ℚ) ≠ (0, 0) := by
  norm_num [LE, Layout.optimize, Layout.optimizeCols, Layout.optimizeBest,
    Layout.selectStep, Layout.candidate, Layout.sortedChildren,
    Layout.childPairs, idxPairsFrom, List.insertionSort, List.orderedInsert,
    widthGe, idxLe, greedyCols, greedyStep, tryPlace, colHeight, colMaxWidth,
    listMax, partWidth, partHeight, partScore, Layout.total_height,
    FLOAT_1_05, FLOAT_1E100, CONST_PHI, List.range', commitCol, commitChild,
    Prod.ext_iff]

/-- C6 counterexample: constructing a leaf from an element with no readable
width or height and no overrides fails with the modeled `AttributeError` of
the failing attribute read, not with the `InvalidElementError` named by the
specification (no such class exists in the source). -/
theorem init_missing_attrs_attributeError :
    LayoutChild.init elemNoAttrs none none 5 5 = Except.error PyError.attributeError ∧
    PyError.attributeError ≠ PyError.invalidElementError :=
  ⟨rfl, fun h => PyError.noConfusion h⟩

/-- C2 counterexample: for two children of width 1 and height `10^100`, every
candidate score reaches the `1e100` sentinel, so `best` is never replaced and
the committed partition is the initial all-in-one-column list, even though the
evaluated two-column candidate has a strictly smaller score. -/
theorem optimize_sentinel_counterexample :
    Lbig.children.length = 2 ∧
    Lbig.optimizeBest = [Lbig.sortedChildren] ∧
    partScore Lbig.ratio (Lbig.candidate 2) < partScore Lbig.ratio Lbig.optimizeBest := by
  norm_num [Lbig, Layout.optimizeBest, Layout.selectStep, Layout.candidate,
    Layout.sortedChildren, Layout.childPairs, idxPairsFrom,
    List.insertionSort, List.orderedInsert, widthGe, greedyCols, greedyStep,
    tryPlace, colHeight, colMaxWidth, listMax, partWidth, partHeight,
    partScore, Layout.total_height, FLOAT_1_05, FLOAT_1E100, CONST_PHI,
    List.range']

/-- C3 counterexample: for a single-child layout, the loop places the child at
x = 0, the sum of the widths before it, but the trailing `self.width = width`
assignment moves it to x = -5. -/
theorem align_horizontal_moves_last_child :
    L1.align_horizontal.1.children.map (fun c => c.x) = [-5] ∧
    ((-5 : ℚ) ≠ prefixW L1.children 0) := by
  norm_num [L1, Layout.align_horizontal, alignHLoop, Layout.set_width,
    Layout.set_height, leaf10, prefixW]

/-- C8: adapting a value that is already a `LayoutChild` returns that same box
unchanged (in particular with the same element and no nested wrapping), and
adaptation is idempotent: re-adapting any successfully adapted box returns
the box unchanged. -/
theorem child_adapt_idempotent :
    (∀ (b : LayoutChild) (ph pv : ℚ),
      Layout.child (ChildArg.box b) ph pv = Except.ok b) ∧
    (∀ (a : ChildArg) (ph pv ph' pv' : ℚ) (b : LayoutChild),
      Layout.child a ph pv = Except.ok b →
      Layout.child (ChildArg.box b) ph' pv' = Except.ok b) :=
  ⟨fun _ _ _ => rfl, fun _ _ _ _ _ _ _ => rfl⟩

/-- C8 witness: adapting the already-adapted 10 by 10 leaf returns it
unchanged. -/
theorem child_adapt_idempotent_w :
    Layout.child (ChildArg.box (leaf10 0)) 1 2 = Except.ok (leaf10 0) :=
  child_adapt_idempotent.2 (ChildArg.elem ⟨0, some 10, some 10⟩) 5 5 1 2 (leaf10 0)
    (by norm_num [Layout.child, LayoutChild.init, Element.getWidth,
      Element.getHeight, leaf10, Bind.bind, Except.bind])

/-- C6 amended: with both explicit sizes the construction succeeds without
reading the element (the stored size is the override plus the padding, for
every element value); when a needed attribute is missing and not overridden
the construction fails with the modeled `AttributeError` — not with the
`InvalidElementError` named by the specification, which does not exist in the
source; and construction fails exactly when some needed attribute is missing. -/
theorem layoutChild_init_error_behavior (e : Element) (w h ph pv : ℚ) :
    (LayoutChild.init e (some w) (some h) ph pv =
      Except.ok { element := some e, x := 0, y := 0, width := w + ph,
                  height := h + pv, padding_horizontal := ph,
                  padding_vertical := pv }) ∧
    (e.width? = none ∨ e.height? = none →
      LayoutChild.init e none none ph pv = Except.error PyError.attributeError) ∧
    (∀ w? h? : Option ℚ,
      isOk (LayoutChild.init e w? h? ph pv) =
        ((w?.isSome || e.width?.isSome) && (h?.isSome || e.height?.isSome))) := by
  refine ⟨rfl, ?_, ?_⟩
  · rintro (hw | hh)
    · simp [LayoutChild.init, Element.getWidth, hw, Bind.bind, Except.bind]
    · cases hw' : e.width? <;>
        simp [LayoutChild.init, Element.getWidth, Element.getHeight, hw', hh,
          Bind.bind, Except.bind]
  · intro w? h?
    cases w? <;> cases h? <;> cases hw' : e.width? <;> cases hh' : e.height? <;>
      simp [LayoutChild.init, isOk, Element.getWidth, Element.getHeight, hw',
        hh', Bind.bind, Except.bind]

/-- C6 witness: the element with no readable attributes and no overrides fails
with `AttributeError`. -/
theorem layoutChild_init_error_behavior_w :
    LayoutChild.init elemNoAttrs none none 5 5 =
      Except.error PyError.attributeError :=
  (layoutChild_init_error_behavior elemNoAttrs 1 2 5 5).2.1 (Or.inl rfl)

/-- C5 amended: `optimize` on a layout with no children does not raise and
returns the layout's own `(padding_horizontal, padding_vertical)` pair —
`(5, 5)` with the defaults — rather than `(0, 0)`. -/
theorem optimize_empty (l : Layout) (h : l.children = [])
    (hpv : 0 ≤ l.padding_vertical) :
    l.optimize.2 = (l.padding_horizontal, l.padding_vertical) := by
  have hcols : l.optimizeCols = [[]] := by
    simp [Layout.optimizeCols, Layout.optimizeBest, Layout.sortedChildren,
      Layout.childPairs, h, idxPairsFrom, List.insertionSort, List.range']
  have hmax : max (0 : ℚ) (l.padding_vertical / 2) = l.padding_vertical / 2 :=
    max_eq_right (by linarith)
  simp [Layout.optimize, hcols, commitCol, commitChild, colMaxWidth, hmax]

/-- C5 witness: the empty default layout returns `(5, 5)` without raising. -/
theorem optimize_empty_w : LE.optimize.2 = (LE.padding_horizontal, LE.padding_vertical) :=
  optimize_empty LE rfl (by norm_num [LE])

/-- The list part of the `align_horizontal` loop keeps the child count. -/
theorem alignHLoop_length (cs : List LayoutChild) (w h : ℚ) :
    (alignHLoop cs w h).1.length = cs.length := by
  induction cs generalizing w h with
  | nil => rfl
  | cons c cs ih => simp [alignHLoop, ih]

/-- The `align_horizontal` loop places the i-th child at the running width sum
and `y = 0`, leaving every other field unchanged. -/
theorem alignHLoop_getElem? (cs : List LayoutChild) (w h : ℚ) (i : Nat) :
    ((alignHLoop cs w h).1)[i]? =
      (cs[i]?).map (fun c => { c with x := w + prefixW cs i, y := (0 : ℚ) }) := by
  induction cs generalizing w h i with
  | nil => simp [alignHLoop]
  | cons c cs ih =>
    cases i with
    | zero => simp [alignHLoop, prefixW]
    | succ i =>
      rw [alignHLoop]
      simp only [List.getElem?_cons_succ, ih]
      cases cs[i]? <;> simp [prefixW, List.take_succ_cons, add_assoc]

/-- The width returned by the `align_horizontal` loop is the accumulator plus
the total width of the children. -/
theorem alignHLoop_width (cs : List LayoutChild) (w h : ℚ) :
    (alignHLoop cs w h).2.1 = w + prefixW cs cs.length := by
  induction cs generalizing w h with
  | nil => simp [alignHLoop, prefixW]
  | cons c cs ih =>
    rw [alignHLoop]
    simp [ih, prefixW, List.take_succ_cons]
    ring

/-- C3 amended: after `align_horizontal` on a nonempty child list, every child
has `y = 0`; every child except the last sits at `x` equal to the sum of the
widths of the children before it; but the trailing `self.width = width`
assignment then moves the last child to
`x = self.x + total width - its width - self.padding_horizontal` (so the last
child's `x` is its prefix sum shifted by the layout's `x` minus its horizontal
padding, not the prefix sum the claim states). -/
theorem align_horizontal_positions (l : Layout) (h : l.children ≠ []) :
    (l.align_horizontal.1.children.length = l.children.length) ∧
    (∀ i : Nat, ((l.align_horizontal.1.children)[i]?).map (fun c => c.y) =
      ((l.children)[i]?).map (fun _ => (0 : ℚ))) ∧
    (∀ i : Nat, i + 1 < l.children.length →
      ((l.align_horizontal.1.children)[i]?).map (fun c => c.x) =
        some (prefixW l.children i)) ∧
    (((l.align_horizontal.1.children)[l.children.length - 1]?).map (fun c => c.x) =
      some (l.x + prefixW l.children l.children.length -
        (l.children.getLast h).width - l.padding_horizontal)) := by
  have hn : 0 < l.children.length := List.length_pos.mpr h
  have hlen := alignHLoop_length l.children 0 0
  have hout := alignHLoop_getElem? l.children 0 0
  have hW := alignHLoop_width l.children 0 0
  have houtne : (alignHLoop l.children 0 0).1 ≠ [] :=
    List.ne_nil_of_length_pos (by rw [hlen]; exact hn)
  have hlast : l.children[l.children.length - 1]? = some (l.children.getLast h) := by
    rw [← List.getLast?_eq_getElem?, List.getLast?_eq_getLast l.children h]
  have hgetlast : (alignHLoop l.children 0 0).1.getLast? =
      some { l.children.getLast h with
             x := 0 + prefixW l.children (l.children.length - 1), y := (0 : ℚ) } := by
    rw [List.getLast?_eq_getElem?, hlen, hout, hlast]
    rfl
  have hchildren : l.align_horizontal.1.children =
      (alignHLoop l.children 0 0).1.set (l.children.length - 1)
        { l.children.getLast h with
          x := l.x + (alignHLoop l.children 0 0).2.1 -
            (l.children.getLast h).width - l.padding_horizontal,
          y := (0 : ℚ) } := by
    simp only [Layout.align_horizontal, Layout.set_height, Layout.set_width,
      hgetlast, hlen]
  refine ⟨?_, ?_, ?_, ?_⟩
  · rw [hchildren]
    simp [hlen]
  · intro i
    rw [hchildren]
    rcases eq_or_ne (l.children.length - 1) i with hi | hi
    · subst hi
      rw [List.getElem?_set, if_pos rfl, if_pos (by rw [hlen]; omega), hlast]
      rfl
    · rw [List.getElem?_set, if_neg hi, hout]
      cases l.children[i]? <;> rfl
  · intro i hi
    rw [hchildren, List.getElem?_set, if_neg (by omega), hout,
      List.getElem?_eq_getElem (by omega : i < l.children.length)]
    simp
  · rw [hchildren, List.getElem?_set, if_pos rfl, if_pos (by rw [hlen]; omega),
      hW]
    simp

/-- C3 witness: on the two-children layout LAB (child A of width 10 then child
B of width 30), after `align_horizontal` child A keeps `x = 0`, everyone has
`y = 0`, and the last child ends at `x = 0 + 40 - 30 - 5 = 5`. -/
theorem align_horizontal_positions_w :
    (LAB.align_horizontal.1.children.length = LAB.children.length) ∧
    (∀ i : Nat, ((LAB.align_horizontal.1.children)[i]?).map (fun c => c.y) =
      ((LAB.children)[i]?).map (fun _ => (0 : ℚ))) ∧
    (∀ i : Nat, i + 1 < LAB.children.length →
      ((LAB.align_horizontal.1.children)[i]?).map (fun c => c.x) =
        some (prefixW LAB.children i)) ∧
    (((LAB.align_horizontal.1.children)[LAB.children.length - 1]?).map (fun c => c.x) =
      some (LAB.x + prefixW LAB.children LAB.children.length -
        (LAB.children.getLast (by simp [LAB])).width - LAB.padding_horizontal)) :=
  align_horizontal_positions LAB (by simp [LAB])

/-- C9 amended: for a multi-element `add_children` call without an explicit
`align` keyword, the nested layout is constructed with
`align = Layout.HORIZONTAL` — the hard-coded keyword default — regardless of
the layout's own `align` attribute. -/
theorem add_children_align_defaults_horizontal (l : Layout) (c1 c2 : ChildArg)
    (rest : List ChildArg) :
    l.add_children (c1 :: c2 :: rest) none =
      Except.ok (l, AddAction.nested (c1 :: c2 :: rest) l.ratio Layout.HORIZONTAL
        l.padding) := rfl

/-- C9 counterexample: a layout whose own `align` attribute is `VERTICAL`
still constructs the nested layout with `align = Layout.HORIZONTAL` when
`add_children` receives two elements and no `align` keyword. -/
theorem add_children_ignores_align_attr :
    LV.add_children
        [ChildArg.elem ⟨0, some 10, some 10⟩, ChildArg.elem ⟨1, some 10, some 10⟩]
        none =
      Except.ok (LV, AddAction.nested
        [ChildArg.elem ⟨0, some 10, some 10⟩, ChildArg.elem ⟨1, some 10, some 10⟩]
        CONST_PHI Layout.HORIZONTAL 5) ∧
    Layout.HORIZONTAL ≠ LV.align := by
  exact ⟨rfl, by norm_num [Layout.HORIZONTAL, Layout.VERTICAL, LV]⟩

/-- Index tagging preserves the child count. -/
theorem idxPairsFrom_length (cs : List LayoutChild) :
    ∀ n, (idxPairsFrom n cs).length = cs.length := by
  induction cs with
  | nil => intro n; rfl
  | cons c cs ih => intro n; simp [idxPairsFrom, ih]

/-- The packing sort preserves the child count (source lines 258-259 sort a
copy of `self.children`). -/
theorem sortedChildren_length (l : Layout) :
    l.sortedChildren.length = l.children.length := by
  rw [Layout.sortedChildren, List.length_insertionSort, Layout.childPairs,
    idxPairsFrom_length]

/-- Characterization of the candidate-selection loop (source lines 262-282)
after the first `m` iterations: either no candidate so far beat the `1e100`
sentinel and the accumulator still holds the initial
`([children], 1e100)`, or the accumulator holds the earliest candidate of
minimal score among the first `m`. -/
theorem selectLoop_spec (l : Layout) (m : Nat) :
    (((List.range' 1 m).foldl l.selectStep ([l.sortedChildren], FLOAT_1E100)) =
        ([l.sortedChildren], FLOAT_1E100) ∧
      ∀ k, 1 ≤ k → k < 1 + m →
        FLOAT_1E100 ≤ partScore l.ratio (l.candidate k)) ∨
    (∃ k₀, 1 ≤ k₀ ∧ k₀ < 1 + m ∧
      ((List.range' 1 m).foldl l.selectStep ([l.sortedChildren], FLOAT_1E100)).1 =
        l.candidate k₀ ∧
      ((List.range' 1 m).foldl l.selectStep ([l.sortedChildren], FLOAT_1E100)).2 =
        partScore l.ratio (l.candidate k₀) ∧
      partScore l.ratio (l.candidate k₀) < FLOAT_1E100 ∧
      (∀ k, 1 ≤ k → k < 1 + m →
        partScore l.ratio (l.candidate k₀) ≤ partScore l.ratio (l.candidate k)) ∧
      (∀ k, 1 ≤ k → k < k₀ →
        partScore l.ratio (l.candidate k₀) < partScore l.ratio (l.candidate k))) := by
  induction m with
  | zero =>
    left
    exact ⟨rfl, fun k h1 h2 => (by omega : False).elim⟩
  | succ m ih =>
    have hstep : (List.range' 1 (m + 1)).foldl l.selectStep
        ([l.sortedChildren], FLOAT_1E100) =
        l.selectStep ((List.range' 1 m).foldl l.selectStep
          ([l.sortedChildren], FLOAT_1E100)) (1 + m) := by
      rw [List.range'_concat, List.foldl_append]
      simp
    rw [hstep]
    rcases ih with ⟨hr, hall⟩ | ⟨k₀, hk1, hk2, hb, hs, hlt100, hmin, hfirst⟩
    · rw [hr]
      by_cases hlt : partScore l.ratio (l.candidate (1 + m)) < FLOAT_1E100
      · right
        refine ⟨1 + m, by omega, by omega, ?_, ?_, hlt, ?_, ?_⟩
        · simp [Layout.selectStep, if_pos hlt]
        · simp [Layout.selectStep, if_pos hlt]
        · intro k h1 h2
          rcases Nat.lt_or_ge k (1 + m) with hk | hk
          · exact le_of_lt (lt_of_lt_of_le hlt (hall k h1 hk))
          · have : k = 1 + m := by omega
            rw [this]
        · intro k h1 h2
          exact lt_of_lt_of_le hlt (hall k h1 (by omega))
      · left
        refine ⟨by simp [Layout.selectStep, if_neg hlt], fun k h1 h2 => ?_⟩
        rcases Nat.lt_or_ge k (1 + m) with hk | hk
        · exact hall k h1 hk
        · have : k = 1 + m := by omega
          rw [this]
          exact not_lt.mp hlt
    · by_cases hlt : partScore l.ratio (l.candidate (1 + m)) <
        ((List.range' 1 m).foldl l.selectStep ([l.sortedChildren], FLOAT_1E100)).2
      · right
        rw [hs] at hlt
        refine ⟨1 + m, by omega, by omega, ?_, ?_, lt_trans hlt hlt100, ?_, ?_⟩
        · simp [Layout.selectStep, hs, if_pos hlt]
        · simp [Layout.selectStep, hs, if_pos hlt]
        · intro k h1 h2
          rcases Nat.lt_or_ge k (1 + m) with hk | hk
          · exact le_of_lt (lt_of_lt_of_le hlt (hmin k h1 hk))
          · have : k = 1 + m := by omega
            rw [this]
        · intro k h1 h2
          exact lt_of_lt_of_le hlt (hmin k h1 (by omega))
      · right
        rw [hs] at hlt
        refine ⟨k₀, hk1, by omega, ?_, ?_, hlt100, ?_, hfirst⟩
        · simp [Layout.selectStep, hs, if_neg hlt, hb]
        · simp [Layout.selectStep, hs, if_neg hlt]
        · intro k h1 h2
          rcases Nat.lt_or_ge k (1 + m) with hk | hk
          · exact hmin k h1 hk
          · have : k = 1 + m := by omega
            rw [this]
            exact not_lt.mp hlt

/-- C2 amended: when at least one candidate scores below the `1e100` sentinel
(in particular the single-column candidate, evaluated first), the loop indeed
ranges over every column count 1..N, builds each candidate by the height-cap
greedy rule, and commits the earliest candidate of minimal score
`width + ratio*height`; without that proviso the initial `best = [children]`
can be committed over a cheaper evaluated candidate. -/
theorem optimize_commits_min_score_candidate (l : Layout) (h : l.children ≠ [])
    (hsent : partScore l.ratio (l.candidate 1) < FLOAT_1E100) :
    ∃ k₀, 1 ≤ k₀ ∧ k₀ ≤ l.children.length ∧
      l.optimizeBest = l.candidate k₀ ∧
      l.optimizeCols = (l.candidate k₀).map (List.insertionSort idxLe) ∧
      (∀ k, 1 ≤ k → k ≤ l.children.length →
        partScore l.ratio (l.candidate k₀) ≤ partScore l.ratio (l.candidate k)) ∧
      (∀ k, 1 ≤ k → k < k₀ →
        partScore l.ratio (l.candidate k₀) < partScore l.ratio (l.candidate k)) := by
  have hn : 0 < l.children.length := List.length_pos.mpr h
  have hlen := sortedChildren_length l
  rcases selectLoop_spec l l.sortedChildren.length with
    ⟨hr, hall⟩ | ⟨k₀, hk1, hk2, hb, hs, hlt100, hmin, hfirst⟩
  · exact absurd hsent (not_lt.mpr (hall 1 le_rfl (by omega)))
  · refine ⟨k₀, hk1, by omega, hb, ?_, ?_, hfirst⟩
    · rw [Layout.optimizeCols, Layout.optimizeBest, hb]
    · intro k h1 h2
      exact hmin k h1 (by omega)

/-- C2 witness: for the two-children layout LAB the committed partition is a
candidate of minimal score among all evaluated column counts. -/
theorem optimize_commits_min_score_candidate_w :
    ∃ k₀, 1 ≤ k₀ ∧ k₀ ≤ LAB.children.length ∧
      LAB.optimizeBest = LAB.candidate k₀ ∧
      LAB.optimizeCols = (LAB.candidate k₀).map (List.insertionSort idxLe) ∧
      (∀ k, 1 ≤ k → k ≤ LAB.children.length →
        partScore LAB.ratio (LAB.candidate k₀) ≤ partScore LAB.ratio (LAB.candidate k)) ∧
      (∀ k, 1 ≤ k → k < k₀ →
        partScore LAB.ratio (LAB.candidate k₀) < partScore LAB.ratio (LAB.candidate k)) :=
  optimize_commits_min_score_candidate LAB (by simp [LAB])
    (by norm_num [LAB, Layout.candidate, Layout.sortedChildren,
      Layout.childPairs, idxPairsFrom, List.insertionSort, List.orderedInsert,
      widthGe, greedyCols, greedyStep, tryPlace, colHeight, colMaxWidth,
      listMax, partWidth, partHeight, partScore, Layout.total_height,
      FLOAT_1_05, FLOAT_1E100, CONST_PHI, cA, cB])

/-- C7: every committed column lists its children sorted by original insertion
index (the width-descending packing sort is undone before positions are
written), so a child inserted earlier is placed above any same-column child
inserted later. -/
theorem optimize_columns_insertion_order (l : Layout)
    (col : List (Nat × LayoutChild)) (hcol : col ∈ l.optimizeCols) :
    List.Sorted idxLe col ∧
    ∀ (i j : Fin col.length), (col.get i).1 < (col.get j).1 → i < j := by
  rcases List.mem_map.mp hcol with ⟨c, _, rfl⟩
  have hsorted : List.Sorted idxLe (List.insertionSort idxLe c) :=
    List.sorted_insertionSort idxLe c
  refine ⟨hsorted, fun i j hij => ?_⟩
  rcases lt_trichotomy i j with hlt | heq | hgt
  · exact hlt
  · rw [heq] at hij
    exact absurd hij (lt_irrefl _)
  · have hle := List.pairwise_iff_get.mp hsorted j i hgt
    exact absurd hij (not_lt.mpr hle)

/-- C7 witness: the single committed column of the layout LAB lists A (index
0, inserted first) before B (index 1), although the packing sort had B first. -/
theorem optimize_columns_insertion_order_w :
    List.Sorted idxLe [(0, cA), (1, cB)] ∧
    ∀ (i j : Fin ([(0, cA), (1, cB)] : List (Nat × LayoutChild)).length),
      (([(0, cA), (1, cB)] : List (Nat × LayoutChild)).get i).1 <
        (([(0, cA), (1, cB)] : List (Nat × LayoutChild)).get j).1 → i < j :=
  optimize_columns_insertion_order LAB [(0, cA), (1, cB)]
    (by norm_num [LAB, Layout.optimizeCols, Layout.optimizeBest,
      Layout.selectStep, Layout.candidate, Layout.sortedChildren,
      Layout.childPairs, idxPairsFrom, List.insertionSort, List.orderedInsert,
      widthGe, idxLe, greedyCols, greedyStep, tryPlace, colHeight, colMaxWidth,
      listMax, partWidth, partHeight, partScore, Layout.total_height,
      FLOAT_1_05, FLOAT_1E100, CONST_PHI, cA, cB, List.range'])

/-- A pair produced by index tagging records the child stored at its index. -/
theorem idxPairsFrom_mem (cs : List LayoutChild) :
    ∀ (n : Nat) (ic : Nat × LayoutChild), ic ∈ idxPairsFrom n cs →
      n ≤ ic.1 ∧ cs[ic.1 - n]? = some ic.2 := by
  induction cs with
  | nil => intro n ic h; exact absurd h (by simp [idxPairsFrom])
  | cons c cs ih =>
    intro n ic h
    rw [idxPairsFrom] at h
    rcases List.mem_cons.mp h with rfl | h
    · exact ⟨le_refl n, by simp⟩
    · rcases ih (n + 1) ic h with ⟨h1, h2⟩
      refine ⟨by omega, ?_⟩
      have hi : ic.1 - n = (ic.1 - (n + 1)) + 1 := by omega
      rw [hi, List.getElem?_cons_succ]
      exact h2

/-- A tagged pair of a layout looks up to its own child. -/
theorem childPairs_getElem? (l : Layout) (ic : Nat × LayoutChild)
    (h : ic ∈ l.childPairs) : l.children[ic.1]? = some ic.2 := by
  rcases idxPairsFrom_mem l.children 0 ic h with ⟨_, h2⟩
  rw [Nat.sub_zero] at h2
  exact h2

/-- A first-fit insertion only adds the placed child to the columns. -/
theorem tryPlace_mem (cap : ℚ) (c : Nat × LayoutChild) :
    ∀ (cols cols' : List (List (Nat × LayoutChild))),
      tryPlace cap c cols = some cols' →
      ∀ col' ∈ cols', ∀ ic ∈ col', ic = c ∨ ∃ col ∈ cols, ic ∈ col := by
  intro cols
  induction cols with
  | nil => intro cols' h; exact absurd h (by simp [tryPlace])
  | cons col rest ih =>
    intro cols' h col' hcol' ic hic
    rw [tryPlace] at h
    by_cases hfit : colHeight col + c.2.height < cap
    · rw [if_pos hfit] at h
      injection h with h
      subst h
      rcases List.mem_cons.mp hcol' with rfl | hcol'
      · rcases List.mem_append.mp hic with hic | hic
        · exact Or.inr ⟨col, List.mem_cons_self _ _, hic⟩
        · exact Or.inl (List.mem_singleton.mp hic)
      · exact Or.inr ⟨col', List.mem_cons_of_mem _ hcol', hic⟩
    · rw [if_neg hfit] at h
      cases htp : tryPlace cap c rest with
      | none => rw [htp] at h; exact absurd h (by simp)
      | some r =>
        rw [htp] at h
        simp only [Option.map_some'] at h
        injection h with h
        subst h
        rcases List.mem_cons.mp hcol' with rfl | hcol'
        · exact Or.inr ⟨col', List.mem_cons_self _ _, hic⟩
        · rcases ih r htp col' hcol' ic hic with h | ⟨col0, hcol0, hic0⟩
          · exact Or.inl h
          · exact Or.inr ⟨col0, List.mem_cons_of_mem _ hcol0, hic0⟩

/-- A greedy step only adds the placed child to the columns. -/
theorem greedyStep_mem (cap : ℚ) (cols : List (List (Nat × LayoutChild)))
    (c : Nat × LayoutChild) (col' : List (Nat × LayoutChild))
    (hcol' : col' ∈ greedyStep cap cols c) (ic : Nat × LayoutChild)
    (hic : ic ∈ col') : ic = c ∨ ∃ col ∈ cols, ic ∈ col := by
  rw [greedyStep] at hcol'
  cases htp : tryPlace cap c cols with
  | none =>
    rw [htp, Option.getD_none] at hcol'
    rcases List.mem_append.mp hcol' with h | h
    · exact Or.inr ⟨col', h, hic⟩
    · rw [List.mem_singleton.mp h] at hic
      exact Or.inl (List.mem_singleton.mp hic)
  | some r =>
    rw [htp, Option.getD_some] at hcol'
    exact tryPlace_mem cap c cols r htp col' hcol' ic hic

/-- Every child in a greedily built set of columns satisfies any predicate
holding on the starting columns and on the placed children. -/
theorem greedyCols_fold_mem (cap : ℚ) (P : Nat × LayoutChild → Prop) :
    ∀ (cs : List (Nat × LayoutChild)) (cols0 : List (List (Nat × LayoutChild))),
      (∀ col ∈ cols0, ∀ ic ∈ col, P ic) → (∀ c ∈ cs, P c) →
      ∀ col ∈ cs.foldl (greedyStep cap) cols0, ∀ ic ∈ col, P ic := by
  intro cs
  induction cs with
  | nil => intro cols0 h0 _ col hcol ic hic; exact h0 col hcol ic hic
  | cons c cs ih =>
    intro cols0 h0 hcs col hcol ic hic
    rw [List.foldl_cons] at hcol
    refine ih (greedyStep cap cols0 c) ?_
      (fun d hd => hcs d (List.mem_cons_of_mem _ hd)) col hcol ic hic
    intro col' hcol' ic' hic'
    rcases greedyStep_mem cap cols0 c col' hcol' ic' hic' with rfl | ⟨col0, h1, h2⟩
    · exact hcs ic' (List.mem_cons_self _ _)
    · exact h0 col0 h1 ic' h2

/-- Every child of a greedy partition comes from its input list. -/
theorem greedyCols_mem (cap : ℚ) (cs : List (Nat × LayoutChild))
    (col : List (Nat × LayoutChild)) (hcol : col ∈ greedyCols cap cs)
    (ic : Nat × LayoutChild) (hic : ic ∈ col) : ic ∈ cs :=
  greedyCols_fold_mem cap (fun d => d ∈ cs) cs [] (by simp) (fun _ h => h)
    col hcol ic hic

/-- The selection loop returns either its starting partition or one of the
candidates for a column count it visited. -/
theorem selectLoop_cases (l : Layout) :
    ∀ (ks : List Nat) (acc : List (List (Nat × LayoutChild)) × ℚ),
      (ks.foldl l.selectStep acc).1 = acc.1 ∨
      ∃ k ∈ ks, (ks.foldl l.selectStep acc).1 = l.candidate k := by
  intro ks
  induction ks with
  | nil => intro acc; exact Or.inl rfl
  | cons k ks ih =>
    intro acc
    rw [List.foldl_cons]
    rcases ih (l.selectStep acc k) with h | ⟨k', hk', h⟩
    · rw [h]
      by_cases hlt : partScore l.ratio (l.candidate k) < acc.2
      · exact Or.inr ⟨k, List.mem_cons_self _ _, by simp [Layout.selectStep, if_pos hlt]⟩
      · exact Or.inl (by simp [Layout.selectStep, if_neg hlt])
    · exact Or.inr ⟨k', List.mem_cons_of_mem _ hk', h⟩

/-- Every child of the best partition comes from the sorted child list. -/
theorem optimizeBest_mem (l : Layout) (col : List (Nat × LayoutChild))
    (hcol : col ∈ l.optimizeBest) (ic : Nat × LayoutChild) (hic : ic ∈ col) :
    ic ∈ l.sortedChildren := by
  rw [Layout.optimizeBest] at hcol
  rcases selectLoop_cases l (List.range' 1 l.sortedChildren.length)
    ([l.sortedChildren], FLOAT_1E100) with h | ⟨k, _, h⟩
  · rw [h] at hcol
    rw [List.mem_singleton.mp hcol] at hic
    exact hic
  · rw [h, Layout.candidate] at hcol
    exact greedyCols_mem _ _ col hcol ic hic

/-- Every child of a committed column looks up to the child stored at its own
index in the layout. -/
theorem optimizeCols_lookup (l : Layout) (col : List (Nat × LayoutChild))
    (hcol : col ∈ l.optimizeCols) (ic : Nat × LayoutChild) (hic : ic ∈ col) :
    l.children[ic.1]? = some ic.2 := by
  rw [Layout.optimizeCols] at hcol
  rcases List.mem_map.mp hcol with ⟨c, hc, rfl⟩
  have hic' : ic ∈ c := (List.mem_insertionSort idxLe).mp hic
  have h1 : ic ∈ l.sortedChildren := optimizeBest_mem l c hc ic hic'
  have h2 : ic ∈ l.childPairs := (List.mem_insertionSort widthGe).mp h1
  exact childPairs_getElem? l ic h2

/-- Rewriting one child with a projection-equal value preserves the pointwise
projection invariant. -/
theorem set_pres (base cs : List LayoutChild) (j : Nat) (a : LayoutChild)
    (hcs : ∀ i : Nat, (cs[i]?).map proj = (base[i]?).map proj)
    (hb : ∃ b, base[j]? = some b ∧ proj a = proj b) :
    ∀ i : Nat, ((cs.set j a)[i]?).map proj = (base[i]?).map proj := by
  intro i
  rw [List.getElem?_set]
  by_cases hj : j = i
  · subst hj
    rcases hb with ⟨b, hb1, hb2⟩
    have hlt : j < cs.length := by
      by_contra hge
      have hnone : cs[j]? = none := List.getElem?_eq_none (by omega)
      have h1 := hcs j
      rw [hnone, hb1] at h1
      simp at h1
    rw [if_pos rfl, if_pos hlt, hb1]
    simp [hb2]
  · rw [if_neg hj]
    exact hcs i

/-- The inner commit loop over one column changes only the `x`, `y` and
`width` fields of the children it touches. -/
theorem commitChild_fold_pres (base : List LayoutChild) (x cw : ℚ) :
    ∀ (col : List (Nat × LayoutChild)) (cs : List LayoutChild) (y : ℚ),
      (∀ ic ∈ col, base[ic.1]? = some ic.2) →
      (∀ i : Nat, (cs[i]?).map proj = (base[i]?).map proj) →
      ∀ i : Nat, (((col.foldl (commitChild x cw) (cs, y)).1)[i]?).map proj =
        (base[i]?).map proj := by
  intro col
  induction col with
  | nil => intro cs y _ hcs i; exact hcs i
  | cons ic col ih =>
    intro cs y hmem hcs i
    rw [List.foldl_cons, commitChild]
    have hbase : base[ic.1]? = some ic.2 := hmem ic (List.mem_cons_self _ _)
    apply ih _ _ (fun d hd => hmem d (List.mem_cons_of_mem _ hd))
    exact set_pres base cs ic.1 _ hcs ⟨ic.2, hbase, rfl⟩

/-- The inner commit loop keeps the child count. -/
theorem commitChild_fold_length (x cw : ℚ) :
    ∀ (col : List (Nat × LayoutChild)) (cs : List LayoutChild) (y : ℚ),
      ((col.foldl (commitChild x cw) (cs, y)).1).length = cs.length := by
  intro col
  induction col with
  | nil => intro cs y; rfl
  | cons ic col ih =>
    intro cs y
    rw [List.foldl_cons]
    show ((col.foldl (commitChild x cw) (commitChild x cw (cs, y) ic)).1).length = _
    rw [commitChild]
    rw [ih]
    exact List.length_set cs ic.1 _

/-- The commit phase over all columns changes only `x`, `y` and `width`
fields. -/
theorem commitCol_fold_pres (base : List LayoutChild) (pv2 : ℚ) :
    ∀ (cols : List (List (Nat × LayoutChild))) (cs : List LayoutChild)
      (x cw mh : ℚ),
      (∀ col ∈ cols, ∀ ic ∈ col, base[ic.1]? = some ic.2) →
      (∀ i : Nat, (cs[i]?).map proj = (base[i]?).map proj) →
      ∀ i : Nat, (((cols.foldl (commitCol pv2) (cs, x, cw, mh)).1)[i]?).map proj =
        (base[i]?).map proj := by
  intro cols
  induction cols with
  | nil => intro cs x cw mh _ hcs i; exact hcs i
  | cons col cols ih =>
    intro cs x cw mh hmem hcs i
    rw [List.foldl_cons]
    show (((cols.foldl (commitCol pv2) (commitCol pv2 (cs, x, cw, mh) col)).1)[i]?).map proj = _
    rw [commitCol]
    exact ih _ _ _ _ (fun d hd => hmem d (List.mem_cons_of_mem _ hd))
      (commitChild_fold_pres base _ _ col cs pv2
        (hmem col (List.mem_cons_self _ _)) hcs) i

/-- The commit phase keeps the child count. -/
theorem commitCol_fold_length (pv2 : ℚ) :
    ∀ (cols : List (List (Nat × LayoutChild))) (cs : List LayoutChild)
      (x cw mh : ℚ),
      ((cols.foldl (commitCol pv2) (cs, x, cw, mh)).1).length = cs.length := by
  intro cols
  induction cols with
  | nil => intro cs x cw mh; rfl
  | cons col cols ih =>
    intro cs x cw mh
    rw [List.foldl_cons]
    show ((cols.foldl (commitCol pv2) (commitCol pv2 (cs, x, cw, mh) col)).1).length = _
    rw [commitCol]
    rw [ih]
    exact commitChild_fold_length _ _ col cs pv2

/-- C10: `optimize` neither adds, removes nor reorders children, and for each
child it can change only the `x`, `y` and `width` fields: the `element`,
`height`, `padding_horizontal` and `padding_vertical` of the child stored at
every index are exactly those stored there before the call. -/
theorem optimize_frame (l : Layout) :
    l.optimize.1.children.length = l.children.length ∧
    ∀ i : Nat, ((l.optimize.1.children)[i]?).map proj =
      ((l.children)[i]?).map proj := by
  have hmem : ∀ col ∈ l.optimizeCols, ∀ ic ∈ col, l.children[ic.1]? = some ic.2 :=
    fun col hcol ic hic => optimizeCols_lookup l col hcol ic hic
  constructor
  · show ((l.optimizeCols.foldl (commitCol (l.padding_vertical / 2))
      (l.children, l.padding_horizontal / 2, 0, 0)).1).length = l.children.length
    exact commitCol_fold_length _ l.optimizeCols l.children _ 0 0
  · intro i
    show (((l.optimizeCols.foldl (commitCol (l.padding_vertical / 2))
      (l.children, l.padding_horizontal / 2, 0, 0)).1)[i]?).map proj = _
    exact commitCol_fold_pres l.children _ l.optimizeCols l.children _ 0 0
      hmem (fun _ => rfl) i

end Pressure
